import Mathlib

/-!
Verification of the PID control simulator (`pid_controller.js` variants).

The repository contains three near-duplicate front-ends:
* `Pagina Corregida - copia/pid_controller.js` — the fullest engine
  (disturbance, anti-windup, derivative filter); embedded below with the
  unprefixed names (`tfToStateSpace`, `runSimulation`, ...).
* `Pagina Profesor/pid_controller.js` — embedded with `prof` prefixes.
* `Pagina Corregida/pid_controller.js` — a pendulum-style `simulatePID`
  loop, embedded with `pidCorr` prefixes.

JavaScript numbers are modelled by exact rationals (ℚ).  Division by zero,
which in JavaScript produces a non-finite value, is modelled as 0 by ℚ
except where the non-finiteness is the point of the claim, in which case an
`Option`-valued model (`jsDiv`, `clampStepChecked`) makes it observable.
`Math.random()` is modelled as an explicit noise stream `ℕ → ℚ`, and
`Math.sin (2·π·x)` as an abstract function parameter `sinw : ℚ → ℚ`
(π and sin are transcendental; no claim evaluates them).
-/

namespace PIDSim

/-! ## Definitions -/

/-- `Except` success test (JS: the function returned rather than throwing). -/
def exOk {α : Type} (r : Except String α) : Bool :=
  match r with
  | .ok _ => true
  | .error _ => false

/-- State-space model `{A, B, C, D}` as returned by `tfToStateSpace`. -/
structure StateSpace where
  A : List (List ℚ)
  B : List ℚ
  C : List ℚ
  D : ℚ
deriving DecidableEq, Repr

/-- `tfToStateSpace` of `Pagina Corregida - copia/pid_controller.js`
(lines 448-471).  The JS builds `A` by zero-filling an n×n array, writing
`A[i][i+1] = 1` for `i < n-1` and then `A[n-1][i] = -den[n-i]` for `i < n`;
the rows below are the resulting contents.  For an empty denominator the JS
reaches the `n < 0` guard (`den[0]` is `undefined`, which is not `=== 0`);
for `num.length > den.length` the JS `Array(n - num.length + 1)` constructor
raises a `RangeError`. -/
def tfToStateSpace (num den : List ℚ) : Except String StateSpace :=
  match den with
  | [] => .error ("Invalid denominator.")
  | d0 :: _ =>
    if d0 = 0 then .error ("Denominator highest order coefficient cannot be zero.")
    else
      let den' := den.map (fun d => d / d0)
      let num' := num.map (fun c => c / d0)
      let n := den.length - 1
      if den.length < num.length then .error ("Invalid array length")
      else
        let numPadded := List.replicate (n + 1 - num.length) 0 ++ num'
        let A := (List.range n).map (fun i =>
          if i = n - 1 then (List.range n).map (fun j => -(den'.getD (n - j) 0))
          else (List.range n).map (fun j => if j = i + 1 then (1 : ℚ) else 0))
        let B := (List.range n).map (fun i => if i = n - 1 then (1 : ℚ) else 0)
        .ok ⟨A, B, numPadded.drop 1, numPadded.headD 0⟩

/-- `tfToStateSpace` of `Pagina Profesor/pid_controller.js` (lines 363-394).
After normalizing, the JS `shift()`s off the leading coefficient, so `den'`
here is the normalized denominator without its head.  The function contains
no zero-coefficient check.  The first loop that assigns `C` is dead code:
the final loop overwrites every entry with
`num_padded[n-i] - num_padded[0] * den[n-1-i]`.  An empty denominator is
rejected by the caller before this function runs (the JS would produce
NaN-valued matrices there). -/
def profTfToStateSpace (num den : List ℚ) : Except String StateSpace :=
  match den with
  | [] => .ok ⟨[], [], [], 0⟩
  | d0 :: _ =>
    let den' := (den.map (fun d => d / d0)).tail
    let num' := num.map (fun c => c / d0)
    let n := den'.length
    if den.length < num.length then .error ("Invalid array length")
    else
      let numPadded := List.replicate (n + 1 - num.length) 0 ++ num'
      let A := (List.range n).map (fun i =>
        if i = n - 1 then (List.range n).map (fun j => -(den'.getD (n - 1 - j) 0))
        else (List.range n).map (fun j => if j = i + 1 then (1 : ℚ) else 0))
      let B := (List.range n).map (fun i => if i = n - 1 then (1 : ℚ) else 0)
      let dC := numPadded.headD 0
      let C := (List.range n).map (fun i =>
        numPadded.getD (n - i) 0 - dC * den'.getD (n - 1 - i) 0)
      .ok ⟨A, B, C, dC⟩

/-- The spec's padded numerator: normalize by the leading denominator
coefficient and left-zero-pad the numerator to length n+1 (= the
denominator's length). -/
def specPaddedNumerator (num den : List ℚ) : List ℚ :=
  List.replicate (den.length - num.length) 0 ++ num.map (fun c => c / den.headD 0)

/-- The companion-form shape claimed for `A` and `B`: superdiagonal ones,
bottom row entry `j` equal to minus the normalized denominator coefficient
at position `n - j`, and `B` the length-n unit vector with 1 last. -/
def companionProp (den : List ℚ) (m : StateSpace) : Prop :=
  let n := den.length - 1
  let dn := den.map (fun d => d / den.headD 0)
  m.A.length = n ∧
  (∀ i, i < n → (m.A.getD i []).length = n) ∧
  (∀ i, i + 1 < n → ∀ j, j < n →
    (m.A.getD i []).getD j 0 = if j = i + 1 then 1 else 0) ∧
  (∀ j, j < n → (m.A.getD (n - 1) []).getD j 0 = -(dn.getD (n - j) 0)) ∧
  m.B.length = n ∧
  (∀ i, i < n → m.B.getD i 0 = if i = n - 1 then 1 else 0)

/-! ### Integrator (`rungeKutta`, identical in the copia and Profesor files) -/

/-- JS `x.map((v, i) => v + c * k[i])` — entrywise `x + c·k` over the
indices of `x`. -/
def axpy (x k : List ℚ) (c : ℚ) : List ℚ :=
  (List.range x.length).map (fun i => x.getD i 0 + c * k.getD i 0)

/-- The derivative function `f` inside `rungeKutta`: `res[i] = Σ_j
A[i][j]·x[j] + B[i]·u` for `i, j < n`. -/
def fDeriv (A : List (List ℚ)) (B : List ℚ) (u : ℚ) (n : ℕ) (xv : List ℚ) : List ℚ :=
  (List.range n).map (fun i =>
    ((List.range n).map (fun j => (A.getD i []).getD j 0 * xv.getD j 0)).sum
      + B.getD i 0 * u)

/-- `rungeKutta` of `Pagina Corregida - copia/pid_controller.js`
(lines 482-501; the Profesor file has the same function).  Each stage `k`
is a derivative evaluation scaled by `dt`. -/
def rungeKutta (A : List (List ℚ)) (B x : List ℚ) (u dt : ℚ) : List ℚ :=
  let n := x.length
  let k1 := (fDeriv A B u n x).map (fun v => v * dt)
  let k2 := (fDeriv A B u n (axpy x k1 (1/2))).map (fun v => v * dt)
  let k3 := (fDeriv A B u n (axpy x k2 (1/2))).map (fun v => v * dt)
  let k4 := (fDeriv A B u n (axpy x k3 1)).map (fun v => v * dt)
  (List.range n).map (fun i =>
    x.getD i 0 + (k1.getD i 0 + 2 * k2.getD i 0 + 2 * k3.getD i 0 + k4.getD i 0) / 6)

/-- The claimed classical RK4 update, written the way the spec states it:
unscaled stage derivatives `k1..k4` evaluated at `x`, `x + dt/2·k1`,
`x + dt/2·k2`, `x + dt·k3`, combined as `x + dt/6·(k1+2k2+2k3+k4)`. -/
def rk4Spec (A : List (List ℚ)) (B x : List ℚ) (u dt : ℚ) : List ℚ :=
  let n := x.length
  let q1 := fDeriv A B u n x
  let q2 := fDeriv A B u n (axpy x q1 (dt/2))
  let q3 := fDeriv A B u n (axpy x q2 (dt/2))
  let q4 := fDeriv A B u n (axpy x q3 dt)
  (List.range n).map (fun i =>
    x.getD i 0 + dt/6 * (q1.getD i 0 + 2 * q2.getD i 0 + 2 * q3.getD i 0 + q4.getD i 0))

/-- Lines 76-78 of `Pagina Corregida/pid_controller.js` (`simulatePID`): the
state update there is semi-implicit Euler on the pendulum-style plant
`θ' = ω`, `ω' = -(g/L)·θ + u` with `g = 9.8`, `L = 1.0` — `alpha` is the
acceleration, then `omega += alpha·dt; theta += omega·dt`. -/
def eulerPendulumStep (theta omega u dt : ℚ) : ℚ × ℚ :=
  let alpha := -(49/5) / 1 * theta + u
  let omega' := omega + alpha * dt
  let theta' := theta + omega' * dt
  (theta', omega')

/-! ### Reference generator, anti-windup, controller step -/

/-- Reference signal kinds accepted by `generateReference`. -/
inductive RefKind where
  | step
  | ramp
  | sine
  | square
deriving DecidableEq, Repr

/-- Anti-windup selector (`antiWindup` select element). -/
inductive AntiWindup where
  | none
  | clamping
deriving DecidableEq, Repr

/-- Derivative-filter selector (`derivativeFilter` select element). -/
inductive DerivFilter where
  | none
  | firstOrder
deriving DecidableEq, Repr

/-- JS `Math.sign` restricted to finite inputs: 1, -1, or 0. -/
def sgn (q : ℚ) : ℚ := if 0 < q then 1 else if q < 0 then -1 else 0

/-- `generateReference` of the copia file (lines 432-440).  `sinw` stands
for the transcendental map `x ↦ Math.sin(2·π·x)`, so the JS
`Math.sin(2·π·freq·t)` is `sinw (freq * t)`.  The `default` switch case
returns `amp`, as `step` does. -/
def generateReference (sinw : ℚ → ℚ) (t : ℚ) (ty : RefKind) (amp freq : ℚ) : ℚ :=
  match ty with
  | RefKind.step => amp
  | RefKind.ramp => amp * t
  | RefKind.sine => amp * sinw (freq * t)
  | RefKind.square => amp * sgn (sinw (freq * t))

/-- Division as JS performs it, with the non-finite result of dividing a
nonzero value by zero made observable as `none`. -/
def jsDiv (a b : ℚ) : Option ℚ := if b = 0 then none else some (a / b)

/-- The anti-windup clamping block of the copia `runSimulation`
(lines 391-405), as a function of `(ki, u_unclamped, integral)` returning
the clamped `u` and the corrected integral.  `u = u_unclamped` on entry, so
the inner JS conditions repeat the outer ones; they are kept.  ℚ division
by zero silently yields 0 here; see `clampStepChecked` for the model that
keeps the division observable. -/
def clampStep (ki uUnclamped integral : ℚ) : ℚ × ℚ :=
  if 5 < uUnclamped then
    (5, if 5 < uUnclamped then integral - (uUnclamped - 5) / ki else integral)
  else if uUnclamped < -5 then
    (-5, if uUnclamped < -5 then integral - (uUnclamped - (-5)) / ki else integral)
  else (uUnclamped, integral)

/-- The same anti-windup block with the division written as `jsDiv`, so a
division by `ki = 0` (non-finite in JS) surfaces as `none`. -/
def clampStepChecked (ki uUnclamped integral : ℚ) : Option (ℚ × ℚ) :=
  if 5 < uUnclamped then
    if 5 < uUnclamped then
      (jsDiv (uUnclamped - 5) ki).map (fun c => (5, integral - c))
    else some (5, integral)
  else if uUnclamped < -5 then
    if uUnclamped < -5 then
      (jsDiv (uUnclamped - (-5)) ki).map (fun c => (-5, integral - c))
    else some (-5, integral)
  else some (uUnclamped, integral)

/-! ### SimulationEngine (copia `runSimulation`, lines 305-422) -/

/-- Configuration record read from the UI by `runSimulation`. -/
structure SimConfig where
  numerator : List ℚ
  denominator : List ℚ
  kp : ℚ
  ki : ℚ
  kd : ℚ
  simTime : ℚ
  dt : ℚ
  controlType : RefKind
  amplitude : ℚ
  frequency : ℚ
  antiWindup : AntiWindup
  derivativeFilter : DerivFilter
  disturbanceAmplitude : ℚ
deriving Repr

/-- The five per-step values appended to the result arrays. -/
structure SimRow where
  t : ℚ
  ref : ℚ
  out : ℚ
  err : ℚ
  ctrl : ℚ
deriving DecidableEq, Repr

/-- Loop-carried state of the simulation (`x`, `integral`, `prevError`,
`filteredDerivative`, and the previous control value read back through
`control[i-1] || 0`, which is 0 at step 0 and also maps a stored 0 to 0). -/
structure SimState where
  x : List ℚ
  integral : ℚ
  prevError : ℚ
  filteredDeriv : ℚ
  prevControl : ℚ
deriving DecidableEq, Repr

/-- The produced `simulationData` record: five equal-length series. -/
structure SimResult where
  time : List ℚ
  reference : List ℚ
  output : List ℚ
  error : List ℚ
  control : List ℚ
deriving DecidableEq, Repr

/-- Runs `f` for steps `0, 1, ..., n-1`, threading the state and collecting
one row per step (the JS `for (let i = 0; i < steps; i++)` loop skeleton). -/
def runSteps {ρ σ : Type} (f : ℕ → σ → ρ × σ) (s0 : σ) : ℕ → List ρ × σ
  | 0 => ([], s0)
  | n + 1 =>
    let p := runSteps f s0 n
    let q := f n p.2
    (p.1 ++ [q.1], q.2)

/-- Initial state: `x = new Array(A.length).fill(0)`, accumulators zero. -/
def initState (m : StateSpace) : SimState :=
  ⟨List.replicate m.A.length 0, 0, 0, 0, 0⟩

/-- One iteration of the copia main simulation loop (lines 352-412).  The JS
computes `filteredDerivative` and reads it back inside a single
`derivativeFilter` branch; that branch is read twice here (`fd`, `deriv`)
with identical condition, producing the same values.  The filter constant is
`tau_d = 0.05 = 1/20`, `alpha = dt/(tau_d + dt)`. -/
def simStep (sinw : ℚ → ℚ) (noise : ℕ → ℚ) (cfg : SimConfig) (m : StateSpace)
    (i : ℕ) (s : SimState) : SimRow × SimState :=
  let t := (i : ℚ) * cfg.dt
  let r := generateReference sinw t cfg.controlType cfg.amplitude cfg.frequency
  let yPlant := ((List.range m.C.length).map
      (fun j => m.C.getD j 0 * s.x.getD j 0)).sum + m.D * s.prevControl
  let yDist := yPlant + (noise i - 1/2) * 2 * cfg.disturbanceAmplitude
  let e := r - yDist
  let integral := s.integral + e * cfg.dt
  let rawDeriv := if 0 < i then (e - s.prevError) / cfg.dt else 0
  let alpha := cfg.dt / (1/20 + cfg.dt)
  let fd := if cfg.derivativeFilter = DerivFilter.firstOrder then
      alpha * rawDeriv + (1 - alpha) * s.filteredDeriv
    else s.filteredDeriv
  let deriv := if cfg.derivativeFilter = DerivFilter.firstOrder then fd else rawDeriv
  let uUn := cfg.kp * e + cfg.ki * integral + cfg.kd * deriv
  let u := if cfg.antiWindup = AntiWindup.clamping then
      (clampStep cfg.ki uUn integral).1
    else uUn
  let integral' := if cfg.antiWindup = AntiWindup.clamping then
      (clampStep cfg.ki uUn integral).2
    else integral
  (⟨t, r, yDist, e, u⟩, ⟨rungeKutta m.A m.B s.x u cfg.dt, integral', e, fd, u⟩)

/-- The copia `runSimulation` without its UI parts: validate the parsed
coefficient lists (the `isNaN` checks cannot fire over ℚ), convert to state
space, then run `steps = Math.floor(simTime / dt)` iterations and collect
the five series. -/
def runSimulation (sinw : ℚ → ℚ) (noise : ℕ → ℚ) (cfg : SimConfig) :
    Except String SimResult :=
  if cfg.denominator.length = 0 ∨ cfg.numerator.length = 0 then
    .error ("Invalid transfer function coefficients.")
  else
    match tfToStateSpace cfg.numerator cfg.denominator with
    | .error e => .error e
    | .ok m =>
      let steps := (⌊cfg.simTime / cfg.dt⌋).toNat
      let rows := (runSteps (simStep sinw noise cfg m) (initState m) steps).1
      .ok ⟨rows.map (fun r => r.t), rows.map (fun r => r.ref),
           rows.map (fun r => r.out), rows.map (fun r => r.err),
           rows.map (fun r => r.ctrl)⟩

/-- `simStep` with the anti-windup division kept observable: identical to
`simStep` except that the clamping branch runs `clampStepChecked`, so a
back-correction dividing by `ki = 0` (non-finite in JS, poisoning the
loop-carried `integral` and, one step later, the stored control value)
surfaces as `none` instead of being silently read as 0. -/
def simStepChecked (sinw : ℚ → ℚ) (noise : ℕ → ℚ) (cfg : SimConfig)
    (m : StateSpace) (i : ℕ) (s : SimState) : Option (SimRow × SimState) :=
  let t := (i : ℚ) * cfg.dt
  let r := generateReference sinw t cfg.controlType cfg.amplitude cfg.frequency
  let yPlant := ((List.range m.C.length).map
      (fun j => m.C.getD j 0 * s.x.getD j 0)).sum + m.D * s.prevControl
  let yDist := yPlant + (noise i - 1/2) * 2 * cfg.disturbanceAmplitude
  let e := r - yDist
  let integral := s.integral + e * cfg.dt
  let rawDeriv := if 0 < i then (e - s.prevError) / cfg.dt else 0
  let alpha := cfg.dt / (1/20 + cfg.dt)
  let fd := if cfg.derivativeFilter = DerivFilter.firstOrder then
      alpha * rawDeriv + (1 - alpha) * s.filteredDeriv
    else s.filteredDeriv
  let deriv := if cfg.derivativeFilter = DerivFilter.firstOrder then fd else rawDeriv
  let uUn := cfg.kp * e + cfg.ki * integral + cfg.kd * deriv
  match (if cfg.antiWindup = AntiWindup.clamping then
      clampStepChecked cfg.ki uUn integral
    else some (uUn, integral)) with
  | none => none
  | some ui =>
    some (⟨t, r, yDist, e, ui.1⟩,
          ⟨rungeKutta m.A m.B s.x ui.1 cfg.dt, ui.2, e, fd, ui.1⟩)

/-- `runSteps` for a step function that can hit a non-finite value: the
first failing step aborts the loop. -/
def runStepsChecked {ρ σ : Type} (f : ℕ → σ → Option (ρ × σ)) (s0 : σ) :
    ℕ → Option (List ρ × σ)
  | 0 => some ([], s0)
  | n + 1 =>
    match runStepsChecked f s0 n with
    | none => none
    | some p =>
      match f n p.2 with
      | none => none
      | some q => some (p.1 ++ [q.1], q.2)

/-- The copia engine run with the anti-windup division kept observable: it
agrees with `runSimulation` whenever `ki ≠ 0` (see
`runSimulationChecked_eq_of_ki_ne`) and errors where the JS arithmetic
leaves the finite domain. -/
def runSimulationChecked (sinw : ℚ → ℚ) (noise : ℕ → ℚ) (cfg : SimConfig) :
    Except String SimResult :=
  if cfg.denominator.length = 0 ∨ cfg.numerator.length = 0 then
    .error ("Invalid transfer function coefficients.")
  else
    match tfToStateSpace cfg.numerator cfg.denominator with
    | .error e => .error e
    | .ok m =>
      let steps := (⌊cfg.simTime / cfg.dt⌋).toNat
      match runStepsChecked (simStepChecked sinw noise cfg m) (initState m) steps with
      | none => .error ("Non-finite value in anti-windup back-correction")
      | some rows =>
        .ok ⟨rows.1.map (fun r => r.t), rows.1.map (fun r => r.ref),
             rows.1.map (fun r => r.out), rows.1.map (fun r => r.err),
             rows.1.map (fun r => r.ctrl)⟩

/-- The shape asserted of a finished run: all five series have length
`floor(simTime/dt)` and the time series entry at step `i` is `i·dt`. -/
def engineShapeProp (cfg : SimConfig) (res : SimResult) : Prop :=
  let steps := (⌊cfg.simTime / cfg.dt⌋).toNat
  res.time.length = steps ∧ res.reference.length = steps ∧
  res.output.length = steps ∧ res.error.length = steps ∧
  res.control.length = steps ∧
  ∀ i, i < steps → res.time.getD i 0 = (i : ℚ) * cfg.dt

/-! ### `Pagina Corregida` `simulatePID` (the third variant's engine) -/

/-- Per-iteration pushes of `simulatePID`: control (pre-update), then the
post-update time, output and reference. -/
structure PidCorrRow where
  ctrl : ℚ
  t : ℚ
  out : ℚ
  ref : ℚ
deriving DecidableEq, Repr

/-- Loop state of `simulatePID`: `theta`, `omega`, `integralError`,
`previousError`, `time`. -/
structure PidCorrState where
  theta : ℚ
  omega : ℚ
  integralError : ℚ
  previousError : ℚ
  time : ℚ
deriving DecidableEq, Repr

/-- The four series produced by `simulatePID` (there is no error series). -/
structure PidCorrResult where
  time : List ℚ
  output : List ℚ
  control : List ℚ
  reference : List ℚ
deriving DecidableEq, Repr

/-- One iteration of `simulatePID` (lines 67-84 of
`Pagina Corregida/pid_controller.js`): PID on the error, then the
`eulerPendulumStep` update, then `time += timeStep` and the pushes. -/
def pidCorrStep (kp ki kd setpoint dt : ℚ) (_i : ℕ) (s : PidCorrState) :
    PidCorrRow × PidCorrState :=
  let e := setpoint - s.theta
  let integral' := s.integralError + e * dt
  let dErr := (e - s.previousError) / dt
  let u := kp * e + ki * integral' + kd * dErr
  let st := eulerPendulumStep s.theta s.omega u dt
  let time' := s.time + dt
  (⟨u, time', st.1, setpoint⟩, ⟨st.1, st.2, integral', e, time'⟩)

/-- `simulatePID` of `Pagina Corregida/pid_controller.js` (lines 33-88)
without its UI parts.  The JS loop `for (let i = 0; i < simTime/timeStep;
i++)` with integer `i` executes `⌈simTime/timeStep⌉` iterations (and none
when the quotient is not positive). -/
def simulatePIDCorr (kp ki kd setpoint timeStep simTime : ℚ) : PidCorrResult :=
  let steps := (⌈simTime / timeStep⌉).toNat
  let rows := (runSteps (pidCorrStep kp ki kd setpoint timeStep)
    ⟨0, 0, 0, 0, 0⟩ steps).1
  ⟨rows.map (fun r => r.t), rows.map (fun r => r.out),
   rows.map (fun r => r.ctrl), rows.map (fun r => r.ref)⟩

/-! ### MetricsAnalyzer (overshoot) -/

/-- JS `Math.max(...output)` for the nonempty lists the metrics use. -/
def maxList : List ℚ → ℚ
  | [] => 0
  | a :: t => t.foldl max a

/-- The overshoot computation of the copia `displayMetrics` (lines 685-691):
`finalValue = reference[last]`, `peak = max(output)`; for positive final
value the percentage is computed and a negative result is reset to 0. -/
def overshootCopia (output reference : List ℚ) : ℚ :=
  let finalValue := reference.getD (reference.length - 1) 0
  let peakValue := maxList output
  if 0 < finalValue then
    let os := (peakValue - finalValue) / finalValue * 100
    if os < 0 then 0 else os
  else 0

/-- The overshoot computation of the Profesor `displayMetrics`
(lines 501-506): computed only when the reference kind is `step`, and the
negative case is not reset to 0. -/
def overshootProf (output reference : List ℚ) (ty : RefKind) : ℚ :=
  let finalRef := reference.getD (reference.length - 1) 0
  if ty = RefKind.step then
    if 0 < finalRef then (maxList output - finalRef) / finalRef * 100 else 0
  else 0

/-- The claimed overshoot behavior: the percentage formula exactly when the
peak exceeds a positive final reference, and 0 whenever the final reference
is ≤ 0 or the peak does not exceed it. -/
def overshootProp (output reference : List ℚ) (os : ℚ) : Prop :=
  let fin := reference.getD (reference.length - 1) 0
  let peak := maxList output
  (0 < fin → fin < peak → os = (peak - fin) / fin * 100) ∧
  (fin ≤ 0 ∨ peak ≤ fin → os = 0)

/-! ### AutoTuner peak detection (`findTu`) -/

/-- Peak times of the Profesor `findTu` (lines 619-627): indices `i` from
`floor(length/2)` to `length-2` where `output[i]` strictly exceeds both
neighbours and the baseline 1, mapped to `time[i]`.  (The JS also computes
an unused `dt = time[1] - time[0]`.) -/
def profPeaks (output time : List ℚ) : List ℚ :=
  ((List.range (output.length - 1)).filter (fun i =>
    decide (output.length / 2 ≤ i) &&
    decide (output.getD (i - 1) 0 < output.getD i 0) &&
    decide (output.getD (i + 1) 0 < output.getD i 0) &&
    decide (1 < output.getD i 0))).map (fun i => time.getD i 0)

/-- `findTu` of the Profesor file (lines 619-650): with at least two peaks,
`tu` is the accumulated sum of consecutive peak-time differences divided by
`peaks.length - 1`; otherwise 0 (displayed as `N/A`). -/
def profFindTu (output time : List ℚ) : ℚ :=
  let peaks := profPeaks output time
  if 2 ≤ peaks.length then
    (List.zipWith (fun a b => a - b) peaks.tail peaks).sum
      / ((peaks.length : ℚ) - 1)
  else 0

/-- Consecutive differences of a list, `[b-a, c-b, ...]`. -/
def consecDiffs : List ℚ → List ℚ
  | a :: b :: t => (b - a) :: consecDiffs (b :: t)
  | _ => []

/-- The mean of the consecutive differences, as the claim states Tu. -/
def meanConsecDiffs (l : List ℚ) : ℚ :=
  (consecDiffs l).sum / ((l.length : ℚ) - 1)

/-- The rising-edge scan of the copia `findTu` (lines 883-898): walking the
series with the previous value and a `rising` flag, a peak time is recorded
at the first strictly-falling sample after a rise. -/
def copiaPeaksAux : ℚ → Bool → List (ℚ × ℚ) → List ℚ
  | _, _, [] => []
  | prev, rising, (o, tv) :: rest =>
    if prev < o then copiaPeaksAux o true rest
    else if o < prev ∧ rising then tv :: copiaPeaksAux o false rest
    else copiaPeaksAux o rising rest

/-- Peak times of the copia `findTu`: scan from index 1 with
`prevValue = output[0]`. -/
def copiaPeaks (output time : List ℚ) : List ℚ :=
  match output with
  | [] => []
  | o0 :: _ => copiaPeaksAux o0 false ((output.zip time).drop 1)

/-- `findTu` of the copia file (lines 883-904): with at least two detected
peaks it returns the difference of the LAST TWO peak times only
(`peaks[len-1] - peaks[len-2]`), otherwise 0. -/
def copiaFindTu (output time : List ℚ) : ℚ :=
  let peaks := copiaPeaks output time
  if 2 ≤ peaks.length then
    peaks.getD (peaks.length - 1) 0 - peaks.getD (peaks.length - 2) 0
  else 0

/-! ### Concrete configurations used by witnesses -/

/-- A configuration with a zero leading denominator coefficient. -/
def cfgZeroDen : SimConfig :=
  { numerator := [1], denominator := [0, 1], kp := 1, ki := 0, kd := 0,
    simTime := 1, dt := 1, controlType := RefKind.step, amplitude := 1,
    frequency := 1, antiWindup := AntiWindup.none,
    derivativeFilter := DerivFilter.none, disturbanceAmplitude := 0 }

/-- Integrator plant 1/s, pure P control, two steps of size 1/2. -/
def cfgShape : SimConfig :=
  { numerator := [1], denominator := [1, 0], kp := 1, ki := 0, kd := 0,
    simTime := 1, dt := 1/2, controlType := RefKind.step, amplitude := 1,
    frequency := 1, antiWindup := AntiWindup.none,
    derivativeFilter := DerivFilter.none, disturbanceAmplitude := 0 }

/-- A full-featured configuration with disturbance amplitude 0. -/
def cfgDet : SimConfig :=
  { numerator := [1], denominator := [1, 1], kp := 1, ki := 1/2, kd := 1/10,
    simTime := 5, dt := 1/10, controlType := RefKind.step, amplitude := 1,
    frequency := 1, antiWindup := AntiWindup.clamping,
    derivativeFilter := DerivFilter.firstOrder, disturbanceAmplitude := 0 }

/-- High proportional gain so the one-step run saturates the control. -/
def cfgClamp : SimConfig :=
  { numerator := [1], denominator := [1, 0], kp := 10, ki := 1, kd := 0,
    simTime := 1, dt := 1, controlType := RefKind.step, amplitude := 1,
    frequency := 1, antiWindup := AntiWindup.clamping,
    derivativeFilter := DerivFilter.none, disturbanceAmplitude := 0 }

/-- Clamping with Ki = 0 (a reachable setting: the Ki slider's minimum is 0
and the Ziegler-Nichols helper sets Ki = 0) and a gain that saturates the
first step, so the anti-windup back-correction divides by zero. -/
def cfgClampKiZero : SimConfig :=
  { numerator := [1], denominator := [1, 0], kp := 10, ki := 0, kd := 0,
    simTime := 2, dt := 1, controlType := RefKind.step, amplitude := 1,
    frequency := 1, antiWindup := AntiWindup.clamping,
    derivativeFilter := DerivFilter.none, disturbanceAmplitude := 0 }

/-! ## Helper lemmas -/

theorem getD_map_range {α : Type} (f : ℕ → α) (d : α) {n i : ℕ} (h : i < n) :
    ((List.range n).map f).getD i d = f i := by
  rw [List.getD_eq_getElem?_getD, List.getElem?_map, List.getElem?_range h]
  rfl

theorem getD_tail (l : List ℚ) (k : ℕ) (d : ℚ) :
    l.tail.getD k d = l.getD (k + 1) d := by
  cases l <;> simp [List.getD_eq_getElem?_getD]

theorem length_map_range (f : ℕ → ℚ) (n : ℕ) :
    ((List.range n).map f).length = n := by
  simp

theorem getD_map_mul (l : List ℚ) (dt : ℚ) (i : ℕ) :
    (l.map (fun v => v * dt)).getD i 0 = l.getD i 0 * dt := by
  rw [List.getD_eq_getElem?_getD, List.getD_eq_getElem?_getD, List.getElem?_map]
  cases l[i]? with
  | none => simp
  | some v => simp

theorem axpy_map_mul (x l : List ℚ) (c dt : ℚ) :
    axpy x (l.map (fun v => v * dt)) c = axpy x l (c * dt) := by
  unfold axpy
  refine List.map_congr_left ?_
  intro i _
  rw [getD_map_mul]
  ring_nf

theorem axpy_map_half (x l : List ℚ) (dt : ℚ) :
    axpy x (l.map (fun v => v * dt)) (1/2) = axpy x l (dt/2) := by
  rw [axpy_map_mul]
  congr 1
  ring

theorem axpy_map_one (x l : List ℚ) (dt : ℚ) :
    axpy x (l.map (fun v => v * dt)) 1 = axpy x l dt := by
  rw [axpy_map_mul]
  congr 1
  ring

theorem runSteps_length {ρ σ : Type} (f : ℕ → σ → ρ × σ) (s0 : σ) (n : ℕ) :
    (runSteps f s0 n).1.length = n := by
  induction n with
  | zero => rfl
  | succ k ih => simp [runSteps, ih]

theorem runSteps_getD_prop {ρ σ : Type} (f : ℕ → σ → ρ × σ) (s0 : σ) (d : ρ)
    (P : ℕ → ρ → Prop) (hf : ∀ i s, P i (f i s).1) :
    ∀ n i, i < n → P i ((runSteps f s0 n).1.getD i d) := by
  intro n
  induction n with
  | zero => intro i hi; omega
  | succ k ih =>
    intro i hi
    simp only [runSteps]
    by_cases hik : i < k
    · rw [List.getD_append _ _ _ _ (by rw [runSteps_length]; exact hik)]
      exact ih i hik
    · have hk : i = k := by omega
      subst hk
      rw [List.getD_append_right _ _ _ _ (by rw [runSteps_length])]
      rw [runSteps_length]
      simp only [Nat.sub_self]
      exact hf i _

theorem runSteps_mem_prop {ρ σ : Type} (f : ℕ → σ → ρ × σ) (s0 : σ)
    (P : ρ → Prop) (hf : ∀ i s, P (f i s).1) :
    ∀ n, ∀ r ∈ (runSteps f s0 n).1, P r := by
  intro n
  induction n with
  | zero => intro r hr; simp [runSteps] at hr
  | succ k ih =>
    intro r hr
    simp only [runSteps] at hr
    rcases List.mem_append.mp hr with h | h
    · exact ih r h
    · rw [List.mem_singleton.mp h]
      exact hf k _

theorem getD_map_getD {α β : Type} (l : List α) (f : α → β) (dβ : β) (dα : α)
    {i : ℕ} (h : i < l.length) :
    (l.map f).getD i dβ = f (l.getD i dα) := by
  rw [List.getD_eq_getElem (l.map f) dβ (by simpa using h),
      List.getD_eq_getElem l dα h]
  simp

theorem simStep_noise_irrelevant (sinw : ℚ → ℚ) (n1 n2 : ℕ → ℚ)
    (cfg : SimConfig) (m : StateSpace) (h : cfg.disturbanceAmplitude = 0)
    (i : ℕ) (s : SimState) :
    simStep sinw n1 cfg m i s = simStep sinw n2 cfg m i s := by
  simp only [simStep, h, mul_zero, add_zero]

theorem consecDiffs_eq_zipWith (l : List ℚ) :
    consecDiffs l = List.zipWith (fun a b => a - b) l.tail l := by
  match l with
  | [] => rfl
  | [_] => rfl
  | a :: b :: t =>
    show (b - a) :: consecDiffs (b :: t) = _
    rw [consecDiffs_eq_zipWith (b :: t)]
    rfl

theorem clampStep_fst_bounds (ki u integral : ℚ) :
    -5 ≤ (clampStep ki u integral).1 ∧ (clampStep ki u integral).1 ≤ 5 := by
  unfold clampStep
  split_ifs with h1 h2
  · exact ⟨by norm_num, by norm_num⟩
  · exact ⟨by norm_num, by norm_num⟩
  · constructor
    · show -5 ≤ u
      linarith [not_lt.mp h2]
    · show u ≤ 5
      linarith [not_lt.mp h1]

theorem clampStepChecked_eq_some (ki u integral : ℚ) (hki : ki ≠ 0) :
    clampStepChecked ki u integral = some (clampStep ki u integral) := by
  simp only [clampStepChecked, clampStep, jsDiv, if_neg hki]
  split_ifs <;> rfl

theorem simStepChecked_eq_some (sinw : ℚ → ℚ) (noise : ℕ → ℚ)
    (cfg : SimConfig) (m : StateSpace) (hki : cfg.ki ≠ 0) (i : ℕ)
    (s : SimState) :
    simStepChecked sinw noise cfg m i s = some (simStep sinw noise cfg m i s) := by
  by_cases haw : cfg.antiWindup = AntiWindup.clamping <;>
    simp [simStepChecked, simStep, haw, clampStepChecked_eq_some _ _ _ hki]

theorem runStepsChecked_eq_some {ρ σ : Type} (f : ℕ → σ → ρ × σ)
    (g : ℕ → σ → Option (ρ × σ)) (hfg : ∀ i s, g i s = some (f i s))
    (s0 : σ) : ∀ n, runStepsChecked g s0 n = some (runSteps f s0 n) := by
  intro n
  induction n with
  | zero => rfl
  | succ k ih => simp [runStepsChecked, runSteps, ih, hfg]

theorem runSimulationChecked_eq_of_ki_ne (sinw : ℚ → ℚ) (noise : ℕ → ℚ)
    (cfg : SimConfig) (hki : cfg.ki ≠ 0) :
    runSimulationChecked sinw noise cfg = runSimulation sinw noise cfg := by
  unfold runSimulationChecked runSimulation
  have heq : ∀ m : StateSpace,
      runStepsChecked (simStepChecked sinw noise cfg m) (initState m)
        ((⌊cfg.simTime / cfg.dt⌋).toNat) =
      some (runSteps (simStep sinw noise cfg m) (initState m)
        ((⌊cfg.simTime / cfg.dt⌋).toNat)) := fun m =>
    runStepsChecked_eq_some _ _
      (fun i s => simStepChecked_eq_some sinw noise cfg m hki i s) _ _
  simp only [heq]

/-! ## Claim theorems -/

/-- C1: for every transfer function accepted by both conversions, `A` is the
n×n companion matrix (superdiagonal ones; bottom-row entry `j` equal to minus
the normalized denominator coefficient at position `n - j`) and `B` is the
length-n unit vector with 1 in its last position, in the copia variant and in
the Profesor variant alike. -/
theorem tf_companion_form (num den : List ℚ) (m mp : StateSpace)
    (hm : tfToStateSpace num den = .ok m)
    (hp : profTfToStateSpace num den = .ok mp) :
    companionProp den m ∧ companionProp den mp := by
  cases den with
  | nil => simp [tfToStateSpace] at hm
  | cons d0 rest =>
    simp only [tfToStateSpace, profTfToStateSpace] at hm hp
    split_ifs at hm hp with h0 hlen
    injection hm with hm'
    injection hp with hp'
    subst hm' hp'
    constructor
    · refine ⟨by simp, ?_, ?_, ?_, by simp, ?_⟩
      · intro i hi
        rw [getD_map_range _ _ hi]
        split_ifs <;> simp
      · intro i hi j hj
        rw [getD_map_range _ _ (by omega : i < (d0 :: rest).length - 1)]
        rw [if_neg (by omega), getD_map_range _ _ hj]
      · intro j hj
        rw [getD_map_range _ _ (by omega : (d0 :: rest).length - 1 - 1 <
              (d0 :: rest).length - 1)]
        rw [if_pos rfl, getD_map_range _ _ hj]
        simp
      · intro i hi
        rw [getD_map_range _ _ hi]
    · have hlen' : ((d0 :: rest).map (fun d => d / d0)).tail.length =
          (d0 :: rest).length - 1 := by simp
      refine ⟨by simp [hlen'], ?_, ?_, ?_, by simp [hlen'], ?_⟩
      · intro i hi
        rw [hlen'] at *
        rw [getD_map_range _ _ hi]
        split_ifs <;> simp
      · intro i hi j hj
        rw [hlen'] at *
        rw [getD_map_range _ _ (by omega : i < (d0 :: rest).length - 1)]
        rw [if_neg (by omega), getD_map_range _ _ hj]
      · intro j hj
        rw [hlen'] at *
        rw [getD_map_range _ _ (by omega : (d0 :: rest).length - 1 - 1 <
              (d0 :: rest).length - 1)]
        rw [if_pos rfl, getD_map_range _ _ hj]
        rw [getD_tail]
        have : (d0 :: rest).length - 1 - 1 - j + 1 = (d0 :: rest).length - 1 - j := by
          omega
        rw [this]
        simp
      · intro i hi
        rw [hlen'] at *
        rw [getD_map_range _ _ hi]

/-- Witness for C1 at num = [1], den = [1, 3, 2]: both conversions succeed,
A = [[0,1],[-2,-3]] and B = [0,1], and the companion-form property holds. -/
theorem tf_companion_form_witness :
    tfToStateSpace [1] [1, 3, 2] =
      .ok ⟨[[0, 1], [-2, -3]], [0, 1], [0, 1], 0⟩ ∧
    profTfToStateSpace [1] [1, 3, 2] =
      .ok ⟨[[0, 1], [-2, -3]], [0, 1], [1, 0], 0⟩ ∧
    companionProp [1, 3, 2] ⟨[[0, 1], [-2, -3]], [0, 1], [0, 1], 0⟩ ∧
    companionProp [1, 3, 2] ⟨[[0, 1], [-2, -3]], [0, 1], [1, 0], 0⟩ := by
  have h1 : tfToStateSpace [1] [1, 3, 2] =
      .ok ⟨[[0, 1], [-2, -3]], [0, 1], [0, 1], 0⟩ := by
    norm_num [tfToStateSpace, List.range_succ, List.getD, List.replicate_succ]
  have h2 : profTfToStateSpace [1] [1, 3, 2] =
      .ok ⟨[[0, 1], [-2, -3]], [0, 1], [1, 0], 0⟩ := by
    norm_num [profTfToStateSpace, List.range_succ, List.getD, List.replicate_succ]
  exact ⟨h1, h2, (tf_companion_form _ _ _ _ h1 h2).1,
    (tf_companion_form _ _ _ _ h1 h2).2⟩

/-- C2 (amended): in the copia variant, `C` is the padded numerator with its
first element removed, in that order, and `D` is that removed first
element.  (The Profesor variant violates this; see the counterexample.) -/
theorem tf_C_D (num den : List ℚ) (m : StateSpace)
    (hm : tfToStateSpace num den = .ok m) :
    m.C = (specPaddedNumerator num den).tail ∧
    m.D = (specPaddedNumerator num den).headD 0 := by
  cases den with
  | nil => simp [tfToStateSpace] at hm
  | cons d0 rest =>
    simp only [tfToStateSpace] at hm
    split_ifs at hm with h0 hlen
    injection hm with hm'
    subst hm'
    have hc : (d0 :: rest).length - 1 + 1 - num.length =
        (d0 :: rest).length - num.length := by
      simp
    constructor
    · show List.drop 1 _ = _
      rw [List.drop_one]
      simp only [specPaddedNumerator, List.headD_cons, hc]
    · simp only [specPaddedNumerator, List.headD_cons, hc]

/-- Witness for C2's amended theorem at num = [1, 2], den = [2, 4, 2]. -/
theorem tf_C_D_witness :
    tfToStateSpace [1, 2] [2, 4, 2] =
      .ok ⟨[[0, 1], [-1, -2]], [0, 1], [1/2, 1], 0⟩ ∧
    StateSpace.C ⟨[[0, 1], [-1, -2]], [0, 1], [1/2, 1], 0⟩ =
      (specPaddedNumerator [1, 2] [2, 4, 2]).tail ∧
    StateSpace.D ⟨[[0, 1], [-1, -2]], [0, 1], [1/2, 1], 0⟩ =
      (specPaddedNumerator [1, 2] [2, 4, 2]).headD 0 := by
  have h : tfToStateSpace [1, 2] [2, 4, 2] =
      .ok ⟨[[0, 1], [-1, -2]], [0, 1], [1/2, 1], 0⟩ := by
    norm_num [tfToStateSpace, List.range_succ, List.getD, List.replicate_succ]
  exact ⟨h, (tf_C_D _ _ _ h).1, (tf_C_D _ _ _ h).2⟩

/-- C2 counterexample: for num = [2, 1], den = [1, 3, 2] the Profesor
conversion returns C = [1, 2], the reverse of the padded numerator with its
first element removed ([2, 1]); the claim fails on that cited variant. -/
theorem prof_C_not_padded_tail :
    profTfToStateSpace [2, 1] [1, 3, 2] =
      .ok ⟨[[0, 1], [-2, -3]], [0, 1], [1, 2], 0⟩ ∧
    (specPaddedNumerator [2, 1] [1, 3, 2]).tail = [2, 1] ∧
    [(1 : ℚ), 2] ≠ [(2 : ℚ), 1] := by
  refine ⟨?_, ?_, by norm_num⟩
  · norm_num [profTfToStateSpace, List.range_succ, List.getD, List.replicate_succ]
  · norm_num [specPaddedNumerator]

/-- C3 (amended): the shared `rungeKutta` function is exactly the classical
4th-order Runge-Kutta update for `f(x) = A·x + B·u`: it returns
`x + dt/6·(k1 + 2k2 + 2k3 + k4)` with the four derivative evaluations taken
at `x`, `x + dt/2·k1`, `x + dt/2·k2` and `x + dt·k3`.  (The `simulatePID`
variant's integrator is not of this form; see the counterexample.) -/
theorem rungeKutta_is_rk4 (A : List (List ℚ)) (B x : List ℚ) (u dt : ℚ)
    (_hdt : 0 < dt) :
    rungeKutta A B x u dt = rk4Spec A B x u dt := by
  simp only [rungeKutta, rk4Spec, axpy_map_half, axpy_map_one]
  refine List.map_congr_left ?_
  intro i _
  simp only [getD_map_mul]
  ring

/-- Witness for C3's amended theorem at the pendulum-style system. -/
theorem rungeKutta_is_rk4_witness :
    (0 : ℚ) < 1 ∧
    rungeKutta [[0, 1], [-49/5, 0]] [0, 1] [1, 0] 0 1 =
      rk4Spec [[0, 1], [-49/5, 0]] [0, 1] [1, 0] 0 1 :=
  ⟨by norm_num, rungeKutta_is_rk4 _ _ _ _ _ (by norm_num)⟩

/-- C3 counterexample: the `simulatePID` integrator of
`Pagina Corregida/pid_controller.js` is semi-implicit Euler, not RK4.  On
the plant θ'' = -9.8·θ with x = (1, 0), u = 0, dt = 1 it yields
θ = -44/5, while the RK4 update of the same state-space model yields
θ = 61/600. -/
theorem euler_step_not_rk4 :
    (eulerPendulumStep 1 0 0 1).1 = -44/5 ∧
    (rungeKutta [[0, 1], [-49/5, 0]] [0, 1] [1, 0] 0 1).getD 0 0 = 61/600 ∧
    (-44/5 : ℚ) ≠ 61/600 := by
  refine ⟨?_, ?_, by norm_num⟩
  · norm_num [eulerPendulumStep]
  · norm_num [rungeKutta, fDeriv, axpy, List.range_succ, List.getD]

/-- C5: the anti-windup clamping block of the copia `runSimulation` executes
`integral -= (u_unclamped - u) / ki` whenever the unclamped output exceeds
the saturation bound, with no guard on `ki`: at `ki = 0` the division by
zero occurs (`none` in the checked model; a non-finite value in JS) instead
of the correction being skipped as the spec requires.  With `ki = 1` the
documented back-correction is applied. -/
theorem clamping_divides_by_ki_zero :
    clampStepChecked 0 11 1 = none ∧ clampStepChecked 1 11 1 = some (5, -5) := by
  constructor <;> norm_num [clampStepChecked, jsDiv]

/-- C6 (amended): for every accepted configuration with dt > 0 and
duration > 0, the copia engine executes exactly floor(simTime/dt) steps,
all five stored series have exactly that length, and the time entry at
step i is i·dt.  (The `simulatePID` variant violates this; see the
counterexample.) -/
theorem runSimulation_shape (sinw : ℚ → ℚ) (noise : ℕ → ℚ) (cfg : SimConfig)
    (res : SimResult) (_hdt : 0 < cfg.dt) (_hT : 0 < cfg.simTime)
    (hok : runSimulation sinw noise cfg = .ok res) :
    engineShapeProp cfg res := by
  unfold runSimulation at hok
  split_ifs at hok
  cases htf : tfToStateSpace cfg.numerator cfg.denominator with
  | error e => rw [htf] at hok; exact Except.noConfusion hok
  | ok m =>
    rw [htf] at hok
    injection hok with hok'
    subst hok'
    refine ⟨by simp [runSteps_length], by simp [runSteps_length],
            by simp [runSteps_length], by simp [runSteps_length],
            by simp [runSteps_length], ?_⟩
    intro i hi
    have hlen : i < ((runSteps (simStep sinw noise cfg m) (initState m)
        (⌊cfg.simTime / cfg.dt⌋).toNat).1).length := by
      rw [runSteps_length]; exact hi
    rw [getD_map_getD _ _ _ ⟨0, 0, 0, 0, 0⟩ hlen]
    exact runSteps_getD_prop (simStep sinw noise cfg m) (initState m)
      ⟨0, 0, 0, 0, 0⟩ (fun j row => row.t = (j : ℚ) * cfg.dt)
      (fun _ _ => rfl) _ i hi

/-- C9: with disturbance amplitude 0, the copia engine's result does not
depend on the random stream at all: two runs with identical configuration
and any two noise streams produce identical SimulationResults.  (The
Profesor engine has no random source, so it is deterministic as well.) -/
theorem runSimulation_deterministic (sinw : ℚ → ℚ) (n1 n2 : ℕ → ℚ)
    (cfg : SimConfig) (h : cfg.disturbanceAmplitude = 0) :
    runSimulation sinw n1 cfg = runSimulation sinw n2 cfg := by
  unfold runSimulation
  have hs : ∀ m : StateSpace, simStep sinw n1 cfg m = simStep sinw n2 cfg m := by
    intro m
    funext i s
    exact simStep_noise_irrelevant sinw n1 n2 cfg m h i s
  simp only [hs]

/-- C10 (amended): with clamping anti-windup and Ki ≠ 0, the
division-checked engine completes with the same result as the total-division
one (so no division by zero is being papered over on this scope) and every
element of the stored control series lies in the saturation interval
[-5, 5].  (At Ki = 0 a saturating step divides by zero in the back-
correction, and in JS a NaN control value escapes the bounds one step
later; see the counterexample.) -/
theorem control_within_saturation_ki_ne (sinw : ℚ → ℚ) (noise : ℕ → ℚ)
    (cfg : SimConfig) (res : SimResult)
    (haw : cfg.antiWindup = AntiWindup.clamping) (hki : cfg.ki ≠ 0)
    (hok : runSimulation sinw noise cfg = .ok res) :
    runSimulationChecked sinw noise cfg = .ok res ∧
    ∀ c ∈ res.control, -5 ≤ c ∧ c ≤ 5 := by
  constructor
  · rw [runSimulationChecked_eq_of_ki_ne sinw noise cfg hki]
    exact hok
  · unfold runSimulation at hok
    split_ifs at hok
    cases htf : tfToStateSpace cfg.numerator cfg.denominator with
    | error e => rw [htf] at hok; exact Except.noConfusion hok
    | ok m =>
      rw [htf] at hok
      injection hok with hok'
      subst hok'
      intro c hc
      rcases List.mem_map.mp hc with ⟨row, hrow, rfl⟩
      refine runSteps_mem_prop _ _ (fun r => -5 ≤ r.ctrl ∧ r.ctrl ≤ 5) ?_ _ row hrow
      intro i s
      simp only [simStep, haw, if_pos]
      exact clampStep_fst_bounds _ _ _

/-- C10 counterexample: with clamping and Ki = 0 (`cfgClampKiZero`), the
first step saturates (u_unclamped = 10 > 5) and the anti-windup
back-correction divides by Ki = 0: the division-checked engine aborts
there, while in JS `integral` becomes -Infinity and the following step
stores `control[1] = NaN` (from `ki·integral = 0·(-Infinity)`), which does
not lie within [-5, 5].  The total-division engine completes only because
it reads the division by zero as 0. -/
theorem clamping_control_nan_at_ki_zero :
    cfgClampKiZero.antiWindup = AntiWindup.clamping ∧
    cfgClampKiZero.ki = 0 ∧
    exOk (runSimulationChecked (fun _ => 0) (fun _ => 0) cfgClampKiZero) = false ∧
    exOk (runSimulation (fun _ => 0) (fun _ => 0) cfgClampKiZero) = true := by
  refine ⟨rfl, rfl, ?_, ?_⟩
  · norm_num [runSimulationChecked, cfgClampKiZero, tfToStateSpace, initState,
      runStepsChecked, simStepChecked, generateReference, clampStepChecked,
      jsDiv, rungeKutta, fDeriv, axpy, exOk, List.range_succ, List.getD,
      List.replicate_succ, Int.toNat_ofNat]
  · norm_num [runSimulation, cfgClampKiZero, tfToStateSpace, initState,
      runSteps, simStep, generateReference, clampStep, rungeKutta, fDeriv,
      axpy, exOk, List.range_succ, List.getD, List.replicate_succ,
      Int.toNat_ofNat]

/-- C4 (amended): in the copia variant, an empty denominator or a zero
leading denominator coefficient makes the state-space conversion fail and
the run abort with no SimulationResult.  (The Profesor conversion has no
such check; see the counterexample.) -/
theorem plant_invalid_aborts (sinw : ℚ → ℚ) (noise : ℕ → ℚ) (cfg : SimConfig)
    (h : cfg.denominator = [] ∨ cfg.denominator.headD 0 = 0) :
    exOk (tfToStateSpace cfg.numerator cfg.denominator) = false ∧
    exOk (runSimulation sinw noise cfg) = false := by
  have htf : exOk (tfToStateSpace cfg.numerator cfg.denominator) = false := by
    cases hd : cfg.denominator with
    | nil => simp [tfToStateSpace, exOk]
    | cons d0 rest =>
      rcases h with h | h
      · rw [hd] at h
        exact absurd h (by simp)
      · rw [hd] at h
        simp only [List.headD_cons] at h
        simp [tfToStateSpace, h, exOk]
  refine ⟨htf, ?_⟩
  unfold runSimulation
  split_ifs with hq
  · rfl
  · cases htf2 : tfToStateSpace cfg.numerator cfg.denominator with
    | error e => rfl
    | ok m =>
      rw [htf2] at htf
      simp [exOk] at htf

/-- C4 counterexample: on num = [1], den = [0, 2] (zero leading denominator
coefficient) the copia conversion fails but the cited Profesor conversion
succeeds and returns a state-space model — no error is raised and the run
is not aborted there. -/
theorem prof_no_zero_denominator_check :
    exOk (tfToStateSpace [1] [0, 2]) = false ∧
    exOk (profTfToStateSpace [1] [0, 2]) = true := by
  constructor
  · norm_num [tfToStateSpace, exOk]
  · norm_num [profTfToStateSpace, exOk]

/-- C7 (amended): the copia overshoot metric equals
(max(output) - finalRef)/finalRef·100 when the peak exceeds a positive
final reference, and 0 whenever the final reference is ≤ 0 or the peak
does not exceed it.  (The Profesor variant violates this; see the
counterexample.) -/
theorem overshootCopia_correct (output reference : List ℚ)
    (_hout : output ≠ []) (_href : reference ≠ []) :
    overshootProp output reference (overshootCopia output reference) := by
  simp only [overshootProp, overshootCopia]
  set fin := reference.getD (reference.length - 1) 0 with hfin_def
  set peak := maxList output with hpeak_def
  constructor
  · intro hfin hlt
    rw [if_pos hfin]
    have hpos : (0 : ℚ) < (peak - fin) / fin * 100 := by
      rw [div_mul_eq_mul_div]
      exact div_pos (by nlinarith) hfin
    rw [if_neg (by linarith)]
  · intro hcase
    rcases hcase with hle | hple
    · rw [if_neg (by linarith : ¬ 0 < fin)]
    · by_cases hfin : 0 < fin
      · rw [if_pos hfin]
        have hnp : (peak - fin) / fin * 100 ≤ 0 := by
          rw [div_mul_eq_mul_div]
          exact div_nonpos_iff.mpr (Or.inr ⟨by nlinarith, le_of_lt hfin⟩)
        by_cases hz : (peak - fin) / fin * 100 < 0
        · rw [if_pos hz]
        · rw [if_neg hz]
          linarith [not_lt.mp hz]
      · rw [if_neg hfin]

/-- Witness for C7's amended theorem: output [0, 3/2], reference [1, 1]. -/
theorem overshootCopia_correct_witness :
    ([(0 : ℚ), 3/2] ≠ []) ∧ ([(1 : ℚ), 1] ≠ []) ∧
    overshootProp [0, 3/2] [1, 1] (overshootCopia [0, 3/2] [1, 1]) :=
  ⟨by simp, by simp, overshootCopia_correct _ _ (by simp) (by simp)⟩

/-- C7 counterexample: in the Profesor variant, with a step reference whose
final value is 1 and an output whose peak 1/2 does not exceed it, the
overshoot is -50 rather than the claimed 0 (the negative case is not
clamped there). -/
theorem prof_overshoot_negative :
    maxList [0, 1/2] ≤ (1 : ℚ) ∧
    overshootProf [0, 1/2] [1, 1] RefKind.step = -50 ∧
    (-50 : ℚ) ≠ 0 := by
  refine ⟨?_, ?_, by norm_num⟩
  · norm_num [maxList, max_def]
  · norm_num [overshootProf, maxList, max_def, List.getD]

/-- The synthetic oscillating output for C8: 25 samples, four strict local
maxima of height 2 at indices 17, 19, 21, 23 (all in the scanned second
half, all above the baseline 1). -/
def tuOutput : List ℚ :=
  (List.range 25).map (fun i =>
    if i = 17 ∨ i = 19 ∨ i = 21 ∨ i = 23 then 2 else 0)

/-- Times for the C8 synthetic series: sample i at time i, so the four
peaks are spaced exactly 2.0 apart. -/
def tuTime : List ℚ := (List.range 25).map (fun i => (i : ℚ))

/-- C8 (amended): in the Profesor variant, whenever peak detection finds at
least two peaks, Tu is the mean of all consecutive peak-time differences
(and 0, shown as N/A, otherwise); on the synthetic series with four peaks
spaced 2.0 apart it resolves to exactly 2.  (The copia `findTu` instead
returns only the last difference; see the counterexample.) -/
theorem profFindTu_is_mean :
    (∀ output time : List ℚ,
      profFindTu output time =
        if 2 ≤ (profPeaks output time).length then
          meanConsecDiffs (profPeaks output time)
        else 0) ∧
    profPeaks tuOutput tuTime = [17, 19, 21, 23] ∧
    profFindTu tuOutput tuTime = 2 := by
  have hmean : ∀ output time : List ℚ,
      profFindTu output time =
        if 2 ≤ (profPeaks output time).length then
          meanConsecDiffs (profPeaks output time)
        else 0 := by
    intro output time
    simp only [profFindTu, meanConsecDiffs, consecDiffs_eq_zipWith]
  have hpeaks : profPeaks tuOutput tuTime = [17, 19, 21, 23] := by
    norm_num [profPeaks, tuOutput, tuTime, List.range_succ, List.getD,
      List.filter]
  refine ⟨hmean, hpeaks, ?_⟩
  rw [hmean, hpeaks]
  norm_num [meanConsecDiffs, consecDiffs]

/-- C8 counterexample: the copia `findTu`, on a series whose detected peak
times are [2, 4, 7], returns the last difference 3, not the mean 5/2 of all
consecutive differences. -/
theorem copia_findTu_not_mean :
    copiaPeaks [0, 1, 0, 1, 0, 0, 1, 0] [0, 1, 2, 3, 4, 5, 6, 7] = [2, 4, 7] ∧
    copiaFindTu [0, 1, 0, 1, 0, 0, 1, 0] [0, 1, 2, 3, 4, 5, 6, 7] = 3 ∧
    meanConsecDiffs [2, 4, 7] = 5/2 ∧
    (3 : ℚ) ≠ 5/2 := by
  have hp : copiaPeaks [(0 : ℚ), 1, 0, 1, 0, 0, 1, 0]
      [0, 1, 2, 3, 4, 5, 6, 7] = [2, 4, 7] := by
    norm_num [copiaPeaks, copiaPeaksAux, List.zip, List.zipWith]
  refine ⟨hp, ?_, ?_, by norm_num⟩
  · norm_num [copiaFindTu, hp, List.getD]
  · norm_num [meanConsecDiffs, consecDiffs]

/-- Witness for C4's amended theorem at the zero-leading-coefficient
configuration: conversion fails and the run produces no result. -/
theorem plant_invalid_aborts_witness :
    (cfgZeroDen.denominator = [] ∨ cfgZeroDen.denominator.headD 0 = 0) ∧
    exOk (tfToStateSpace cfgZeroDen.numerator cfgZeroDen.denominator) = false ∧
    exOk (runSimulation (fun _ => 0) (fun _ => 0) cfgZeroDen) = false := by
  have h : cfgZeroDen.denominator = [] ∨ cfgZeroDen.denominator.headD 0 = 0 :=
    Or.inr (by norm_num [cfgZeroDen])
  exact ⟨h, (plant_invalid_aborts (fun _ => 0) (fun _ => 0) cfgZeroDen h).1,
    (plant_invalid_aborts (fun _ => 0) (fun _ => 0) cfgZeroDen h).2⟩

/-- Witness for C6's amended theorem: the two-step run of `cfgShape` has
all series of length 2 = floor(1 / (1/2)) and time entries 0, 1/2. -/
theorem runSimulation_shape_witness :
    0 < cfgShape.dt ∧ 0 < cfgShape.simTime ∧
    runSimulation (fun _ => 0) (fun _ => 0) cfgShape =
      .ok ⟨[0, 1/2], [1, 1], [0, 1/2], [1, 1/2], [1, 1/2]⟩ ∧
    engineShapeProp cfgShape ⟨[0, 1/2], [1, 1], [0, 1/2], [1, 1/2], [1, 1/2]⟩ := by
  have hok : runSimulation (fun _ => 0) (fun _ => 0) cfgShape =
      .ok ⟨[0, 1/2], [1, 1], [0, 1/2], [1, 1/2], [1, 1/2]⟩ := by
    norm_num [runSimulation, cfgShape, tfToStateSpace, initState, runSteps,
      simStep, generateReference, rungeKutta, fDeriv, axpy, clampStep,
      List.range_succ, List.getD, List.replicate_succ, Int.toNat_ofNat]
  exact ⟨by norm_num [cfgShape], by norm_num [cfgShape], hok,
    runSimulation_shape (fun _ => 0) (fun _ => 0) cfgShape _
      (by norm_num [cfgShape]) (by norm_num [cfgShape]) hok⟩

/-- C6 counterexample: the cited `simulatePID` of `Pagina Corregida` with
duration 1 and step 2/5 runs 3 iterations (the quotient's ceiling), not
floor(1/(2/5)) = 2, and its first time entry is 2/5, not 0·dt = 0. -/
theorem simulatePID_not_floor_steps :
    (simulatePIDCorr 0 0 0 1 (2/5) 1).time.length = 3 ∧
    (⌊(1 : ℚ) / (2/5)⌋).toNat = 2 ∧
    (simulatePIDCorr 0 0 0 1 (2/5) 1).time.getD 0 0 = 2/5 ∧
    (2/5 : ℚ) ≠ 0 * (2/5 : ℚ) := by
  have hc : (⌈(5 : ℚ) / 2⌉).toNat = 3 := by
    have h3 : (⌈(5 : ℚ) / 2⌉ : ℤ) = 3 := by
      rw [Int.ceil_eq_iff]
      constructor <;> norm_num
    rw [h3]
    rfl
  have hf : (⌊(1 : ℚ) / (2/5)⌋).toNat = 2 := by
    have h2 : (⌊(1 : ℚ) / (2/5)⌋ : ℤ) = 2 := by norm_num
    rw [h2]
    rfl
  refine ⟨?_, hf, ?_, by norm_num⟩
  · norm_num [simulatePIDCorr, hc, pidCorrStep, eulerPendulumStep, runSteps]
  · norm_num [simulatePIDCorr, hc, pidCorrStep, eulerPendulumStep, runSteps,
      List.getD]

/-- Witness for C9 at `cfgDet` with two distinct noise streams. -/
theorem runSimulation_deterministic_witness :
    cfgDet.disturbanceAmplitude = 0 ∧
    runSimulation (fun _ => 0) (fun _ => 0) cfgDet =
      runSimulation (fun _ => 0) (fun i => (i : ℚ) / 7) cfgDet :=
  ⟨rfl, runSimulation_deterministic (fun _ => 0) (fun _ => 0)
    (fun i => (i : ℚ) / 7) cfgDet rfl⟩

/-- Witness for C10's amended theorem: the one-step run of `cfgClamp`
(Ki = 1) saturates (u_unclamped = 11), the checked engine agrees, and the
stored control value 5 lies in [-5, 5]. -/
theorem control_within_saturation_ki_ne_witness :
    cfgClamp.antiWindup = AntiWindup.clamping ∧
    cfgClamp.ki ≠ 0 ∧
    runSimulation (fun _ => 0) (fun _ => 0) cfgClamp =
      .ok ⟨[0], [1], [0], [1], [5]⟩ ∧
    runSimulationChecked (fun _ => 0) (fun _ => 0) cfgClamp =
      .ok ⟨[0], [1], [0], [1], [5]⟩ ∧
    (-5 ≤ (5 : ℚ) ∧ (5 : ℚ) ≤ 5) := by
  have hok : runSimulation (fun _ => 0) (fun _ => 0) cfgClamp =
      .ok ⟨[0], [1], [0], [1], [5]⟩ := by
    norm_num [runSimulation, cfgClamp, tfToStateSpace, initState, runSteps,
      simStep, generateReference, rungeKutta, fDeriv, axpy, clampStep,
      List.range_succ, List.getD, List.replicate_succ, Int.toNat_ofNat]
  have h := control_within_saturation_ki_ne (fun _ => 0) (fun _ => 0)
    cfgClamp _ rfl (by norm_num [cfgClamp]) hok
  exact ⟨rfl, by norm_num [cfgClamp], hok, h.1, h.2 5 (by simp)⟩

end PIDSim
